import Mathlib

/-!
Verification of the spreadsheet-proxy repository: the CSV tokenizer
(`parseCSV` in the edge function) and the authorization/proxy request
handler (`serve`), plus the client's `handleSave` request builder.

The embedding follows the TypeScript source:
* `parseCSV` splits the input on the line-feed character, skips lines that
  are blank after trimming, and tokenizes each remaining line with a
  quote-mode state machine (`parseLineAux`).
* `serve` handles CORS preflight, bearer-token authentication, and the
  `read` / `update` actions, with external effects (token verification,
  CSV fetch, webhook call) supplied as oracle inputs in `ServeWorld`.
-/

/-- JavaScript `String.prototype.trim` whitespace, restricted to the code
points that can occur here.  A line is skipped by `parseCSV` exactly when
`line.trim()` is empty, i.e. every character is whitespace. -/
def isJsWhitespace (c : Char) : Bool :=
  c.val = 0x20 || c.val = 0x09 || c.val = 0x0A || c.val = 0x0D ||
  c.val = 0x0B || c.val = 0x0C || c.val = 0xA0 || c.val = 0xFEFF

/-- The character loop of `parseCSV` (Auth.tsx lines 278-295).  State:
remaining characters, `inQuotes` flag, accumulator `current`, and the
fields pushed so far.  A `"` while in quote-mode followed by another `"`
emits one literal `"` and consumes both; otherwise `"` toggles quote-mode.
A `,` outside quote-mode ends the field; anything else is appended.  At end
of line the final accumulator is pushed even if empty. -/
def parseLineAux : List Char → Bool → String → List String → List String
  | [], _, current, values => values ++ [current]
  | '"' :: '"' :: rest, true, current, values =>
      parseLineAux rest true (current.push '"') values
  | '"' :: rest, inQuotes, current, values =>
      parseLineAux rest (!inQuotes) current values
  | ',' :: rest, false, current, values =>
      parseLineAux rest false "" (values ++ [current])
  | c :: rest, inQuotes, current, values =>
      parseLineAux rest inQuotes (current.push c) values

/-- Tokenize a single (newline-free) line, starting outside quote-mode with
an empty accumulator. -/
def parseLine (line : List Char) : List String :=
  parseLineAux line false "" []

/-- JavaScript `csvText.split('\n')` on the character list: split on the
line-feed character only.  `splitLines []` is `[[]]`, matching
`''.split('\n') = ['']`. -/
def splitLines : List Char → List (List Char)
  | [] => [[]]
  | '\n' :: rest => [] :: splitLines rest
  | c :: rest =>
    match splitLines rest with
    | [] => [[c]]
    | l :: ls => (c :: l) :: ls

/-- The line loop of `parseCSV` (Auth.tsx lines 272-298): a line whose
`trim()` is empty contributes nothing; every other line contributes
`parseLine line`. -/
def parseCSVLines : List (List Char) → List (List String)
  | [] => []
  | line :: rest =>
    if line.all isJsWhitespace then parseCSVLines rest
    else parseLine line :: parseCSVLines rest

/-- `parseCSV` (Auth.tsx lines 268-301): split the text on `'\n'` and run
the line loop. -/
def parseCSV (csvText : String) : List (List String) :=
  parseCSVLines (splitLines csvText.toList)

/-! ## The proxy request handler -/

/-- The request as the edge function sees it: HTTP method, optional
`Authorization` header, and the parsed JSON body `{action, row?, data?}`.
`row` is a JSON number (`Int` here); `data` a string-to-string record. -/
structure ProxyRequest where
  method : String
  authHeader : Option String
  action : String
  row : Option Int
  rowData : Option (List (String × String))
  deriving DecidableEq

/-- Process environment: `GOOGLE_APPS_SCRIPT_URL`, read at startup. -/
structure ProxyEnv where
  appsScriptUrl : Option String
  deriving DecidableEq

/-- Outcome of `supabase.auth.getUser(token)`: either an error / missing
user, or a verified user with an email. -/
inductive AuthOutcome where
  | failed
  | ok (email : String)
  deriving DecidableEq

/-- The JSON body returned by the Apps Script webhook:
`{success: boolean, error?: string}`. -/
structure WebhookResponse where
  success : Bool
  error : Option String
  deriving DecidableEq

/-- Oracle for the handler's three outbound effects: token verification,
the CSV export fetch (`none` models a non-ok response, which the code turns
into a thrown error), and the webhook's reply. -/
structure ServeWorld where
  auth : AuthOutcome
  fetchCsv : Option String
  webhook : WebhookResponse
  deriving DecidableEq

/-- The JSON body the proxy sends to the Apps Script webhook
(Auth.tsx lines 230-235). -/
structure WebhookCall where
  action : String
  row : Int
  callData : List (String × String)
  userEmail : String
  deriving DecidableEq

/-- Bodies of the responses the handler can produce. `empty` is the
`null`-body preflight response. -/
inductive ResponseBody where
  | empty
  | err (msg : String)
  | readData (rows : List (List String)) (userEmail : String)
  | updated
  deriving DecidableEq

/-- An HTTP response: status (200 when the code passes none) and body. -/
structure ProxyResponse where
  status : Nat
  body : ResponseBody
  deriving DecidableEq

/-- JavaScript `result.error || 'Update failed'`: the default is used when
`error` is absent or the empty string (both falsy). -/
def jsOrElse (s : Option String) (dflt : String) : String :=
  match s with
  | none => dflt
  | some v => if v = "" then dflt else v

/-- The `serve` handler (Auth.tsx lines 154-266).  Besides the response it
returns the body forwarded to the webhook, when that call happens.
Branches, in source order: CORS preflight; missing `Authorization` header
(401); failed token verification (401); `action = "read"` (fetch + parse,
or 500 on fetch failure); `action = "update"` (falsy `row`/`data` → 400,
unset script URL → 500, then forward and relay the webhook's verdict);
any other action → 400 `Invalid action`. -/
def serve (env : ProxyEnv) (world : ServeWorld) (req : ProxyRequest) :
    ProxyResponse × Option WebhookCall :=
  if req.method = "OPTIONS" then
    (⟨200, .empty⟩, none)
  else if req.authHeader = none then
    (⟨401, .err "No authorization header"⟩, none)
  else
    match world.auth with
    | .failed => (⟨401, .err "Unauthorized"⟩, none)
    | .ok userEmail =>
      if req.action = "read" then
        match world.fetchCsv with
        | none => (⟨500, .err "Failed to fetch spreadsheet data"⟩, none)
        | some csvText => (⟨200, .readData (parseCSV csvText) userEmail⟩, none)
      else if req.action = "update" then
        match req.row, req.rowData with
        | some r, some d =>
          if r = 0 then
            (⟨400, .err "Missing row or data"⟩, none)
          else
            match env.appsScriptUrl with
            | none => (⟨500, .err "Apps Script URL not configured"⟩, none)
            | some _ =>
              let call : WebhookCall := ⟨"update", r, d, userEmail⟩
              if world.webhook.success then
                (⟨200, .updated⟩, some call)
              else
                (⟨400, .err (jsOrElse world.webhook.error "Update failed")⟩, some call)
        | _, _ => (⟨400, .err "Missing row or data"⟩, none)
      else
        (⟨400, .err "Invalid action"⟩, none)

/-- The update request built by the client's `handleSave`
(SpreadsheetEditor, lines 89-113): `row` is the 0-based edited row index
plus 2 (one for the header row, one for 1-indexing), `data` the edited
record; the invoke carries the session's bearer token. -/
def handleSaveRequest (editingRow : Nat) (editData : List (String × String))
    (authToken : String) : ProxyRequest :=
  { method := "POST"
    authHeader := some authToken
    action := "update"
    row := some ((editingRow : Int) + 2)
    rowData := some editData }

/-! ## Helper lemmas -/

/-- The line loop keeps exactly the lines that are not whitespace-only and
parses each of them. -/
theorem parseCSVLines_eq_filter_map (ls : List (List Char)) :
    parseCSVLines ls =
      (ls.filter fun l => !(l.all isJsWhitespace)).map parseLine := by
  induction ls with
  | nil => rfl
  | cons l rest ih =>
    by_cases h : l.all isJsWhitespace
    · simp [parseCSVLines, h, ih]
    · simp [parseCSVLines, h, ih]

/-- Splitting a concatenation at an explicit line feed, when the first part
contains none. -/
theorem splitLines_append (l1 l2 : List Char) (h : '\n' ∉ l1) :
    splitLines (l1 ++ '\n' :: l2) = l1 :: splitLines l2 := by
  induction l1 with
  | nil => rfl
  | cons c cs ih =>
    have hc : c ≠ '\n' := fun hc => h (hc ▸ List.mem_cons_self c cs)
    have hcs : '\n' ∉ cs := fun hm => h (List.mem_cons_of_mem c hm)
    simp [List.cons_append, splitLines, ih hcs, hc]


/-! ## Claim theorems -/

/-- C2: in the tokenizer's character loop, a double quote toggles
quote-mode unless quote-mode is active and the next character is also a
double quote, in which case one literal quote is appended and both
characters are consumed; a comma inside quote-mode is literal content and a
comma outside quote-mode ends the field.  In particular
`parseCSV "a,\"b,c\",d" = [["a","b,c","d"]]` and
`parseCSV "a,\"b\"\"c\",d" = [["a","b\"c","d"]]`. -/
theorem parseCSV_quote_comma_semantics :
    (∀ (rest : List Char) (current : String) (values : List String),
      parseLineAux ('"' :: '"' :: rest) true current values =
        parseLineAux rest true (current.push '"') values) ∧
    (∀ (rest : List Char) (current : String) (values : List String),
      parseLineAux ('"' :: rest) false current values =
        parseLineAux rest true current values) ∧
    (∀ (c : Char) (rest : List Char) (current : String) (values : List String),
      parseLineAux ('"' :: c :: rest) true current values =
        if c = '"' then parseLineAux rest true (current.push '"') values
        else parseLineAux (c :: rest) false current values) ∧
    (∀ (current : String) (values : List String),
      parseLineAux ['"'] true current values = values ++ [current]) ∧
    (∀ (rest : List Char) (current : String) (values : List String),
      parseLineAux (',' :: rest) true current values =
        parseLineAux rest true (current.push ',') values) ∧
    (∀ (rest : List Char) (current : String) (values : List String),
      parseLineAux (',' :: rest) false current values =
        parseLineAux rest false "" (values ++ [current])) ∧
    parseCSV "a,\"b,c\",d" = [["a", "b,c", "d"]] ∧
    parseCSV "a,\"b\"\"c\",d" = [["a", "b\"c", "d"]] := by
  refine ⟨fun rest current values => rfl, ?_, ?_, fun current values => rfl,
    fun rest current values => rfl, ?_, by decide, by decide⟩
  · intro rest current values
    cases rest with
    | nil => rfl
    | cons c cs =>
      by_cases hc : c = '"'
      · subst hc; rfl
      · simp [parseLineAux, hc]
  · intro c rest current values
    by_cases hc : c = '"'
    · subst hc; simp [parseLineAux]
    · simp [parseLineAux, hc]
  · intro rest current values
    cases rest with
    | nil => rfl
    | cons c cs =>
      by_cases hc : c = '"'
      · subst hc; rfl
      · simp [parseLineAux, hc]

/-- C6: `parseCSV` skips every line that is empty or whitespace-only: the
rows produced are exactly the parses of the lines that are not
whitespace-only, and in particular
`parseCSV "a,b\n\nc,d" = [["a","b"],["c","d"]]`. -/
theorem parseCSV_skips_blank_lines :
    (∀ csvText : String,
      parseCSV csvText =
        ((splitLines csvText.toList).filter
          fun l => !(l.all isJsWhitespace)).map parseLine) ∧
    parseCSV "a,b\n\nc,d" = [["a", "b"], ["c", "d"]] := by
  exact ⟨fun csvText => parseCSVLines_eq_filter_map _, by decide⟩

/-- C7: `parseCSV` is a total function of the input string, and a line
whose quote-mode is still open at end of line still has its accumulated
field pushed at the line boundary, exactly as if the quote had been closed;
the quoted field never continues onto the next line.  Witnessed generally
by the end-of-line equation of the character loop (independent of the
quote flag) and concretely by an unterminated quoted field followed by a
second line. -/
theorem parseCSV_total_unterminated_quote :
    (∀ (inQuotes : Bool) (current : String) (values : List String),
      parseLineAux [] inQuotes current values = values ++ [current]) ∧
    parseCSV "\"a,b\nc" = [["a,b"], ["c"]] := by
  exact ⟨fun inQuotes current values => rfl, by decide⟩

/-- C10: the input is split only on the line-feed character, so a CRLF
line ending leaves the carriage return as the last character of the line,
and hence of the row's final field; a line consisting solely of a carriage
return is whitespace-only and skipped.  In particular
`parseCSV "a,b\r\nc,d" = [["a","b\r"],["c","d"]]`. -/
theorem parseCSV_crlf_handling :
    (∀ (l1 l2 : List Char), '\n' ∉ l1 →
      splitLines (l1 ++ '\r' :: '\n' :: l2) = (l1 ++ ['\r']) :: splitLines l2) ∧
    parseCSV "a,b\r\nc,d" = [["a", "b\r"], ["c", "d"]] ∧
    parseCSV "x\n\r\ny" = [["x"], ["y"]] := by
  refine ⟨?_, by decide, by decide⟩
  intro l1 l2 h
  have h2 : '\n' ∉ l1 ++ ['\r'] := by
    intro hm
    rcases List.mem_append.mp hm with hm1 | hm1
    · exact h hm1
    · simp at hm1
  have := splitLines_append (l1 ++ ['\r']) l2 h2
  simpa using this

/-- Witness for C10's general CRLF conjunct at a concrete input. -/
theorem parseCSV_crlf_handling_witness :
    splitLines (['a'] ++ '\r' :: '\n' :: ['b']) =
      (['a'] ++ ['\r']) :: splitLines ['b'] :=
  parseCSV_crlf_handling.1 ['a'] ['b'] (by decide)

/-- C4: a CORS preflight request gets the empty success response no matter
what the rest of the request or the world looks like (in particular with no
`Authorization` header), and every non-preflight request without an
`Authorization` header gets 401 `No authorization header` regardless of
action, environment, or the outcome any outbound call would have had. -/
theorem preflight_and_missing_auth_header (env : ProxyEnv) (world : ServeWorld)
    (req : ProxyRequest) :
    (req.method = "OPTIONS" → serve env world req = (⟨200, .empty⟩, none)) ∧
    (req.method ≠ "OPTIONS" → req.authHeader = none →
      serve env world req = (⟨401, .err "No authorization header"⟩, none)) := by
  constructor
  · intro hm
    simp [serve, hm]
  · intro hm ha
    simp [serve, hm, ha]

/-- Witness for C4 at concrete requests: an OPTIONS request with no
`Authorization` header, and a POST request with no `Authorization`
header. -/
theorem preflight_and_missing_auth_header_witness :
    serve ⟨some "url"⟩ ⟨.ok "user@example.com", none, ⟨true, none⟩⟩
        ⟨"OPTIONS", none, "read", none, none⟩ = (⟨200, .empty⟩, none) ∧
    serve ⟨some "url"⟩ ⟨.ok "user@example.com", none, ⟨true, none⟩⟩
        ⟨"POST", none, "read", none, none⟩ =
      (⟨401, .err "No authorization header"⟩, none) :=
  ⟨(preflight_and_missing_auth_header _ _ _).1 rfl,
   (preflight_and_missing_auth_header _ _ _).2 (by decide) rfl⟩

/-- C9: the update validation tests JavaScript falsiness, not absence: an
authenticated update whose `row` field is present but equal to `0` is
rejected with 400 `Missing row or data`, without any webhook call. -/
theorem update_zero_row_rejected (env : ProxyEnv) (world : ServeWorld)
    (req : ProxyRequest) (email : String)
    (hm : req.method ≠ "OPTIONS") (ha : req.authHeader ≠ none)
    (hauth : world.auth = .ok email) (hact : req.action = "update")
    (hrow : req.row = some 0) :
    serve env world req = (⟨400, .err "Missing row or data"⟩, none) := by
  obtain ⟨tok, htok⟩ := Option.ne_none_iff_exists'.mp ha
  have hread : req.action ≠ "read" := by rw [hact]; decide
  cases hd : req.rowData with
  | none => simp [serve, hm, htok, hauth, hact, hread, hrow, hd]
  | some d => simp [serve, hm, htok, hauth, hact, hread, hrow, hd]

/-- Witness for C9: a concrete authenticated update with `row = 0` and a
non-empty `data` record is rejected. -/
theorem update_zero_row_rejected_witness :
    serve ⟨some "url"⟩ ⟨.ok "user@example.com", none, ⟨true, none⟩⟩
        ⟨"POST", some "token", "update", some 0, some [("name", "x")]⟩ =
      (⟨400, .err "Missing row or data"⟩, none) :=
  update_zero_row_rejected _ _ _ "user@example.com" (by decide) (by decide)
    rfl rfl rfl

/-- C1 (amended): for an authenticated update request, the proxy responds
400 `Missing row or data` without forwarding anything if and only if the
`row` field is absent or equal to `0`, or the `data` field is absent; when
`row` is present and non-zero and `data` is present, processing proceeds
past this validation. -/
theorem update_validation_iff_falsy (env : ProxyEnv) (world : ServeWorld)
    (req : ProxyRequest) (email : String)
    (hm : req.method ≠ "OPTIONS") (ha : req.authHeader ≠ none)
    (hauth : world.auth = .ok email) (hact : req.action = "update") :
    serve env world req = (⟨400, .err "Missing row or data"⟩, none) ↔
      req.row = none ∨ req.row = some 0 ∨ req.rowData = none := by
  obtain ⟨tok, htok⟩ := Option.ne_none_iff_exists'.mp ha
  have hread : req.action ≠ "read" := by rw [hact]; decide
  cases hr : req.row with
  | none =>
    cases hd : req.rowData with
    | none => simp [serve, hm, htok, hauth, hact, hread, hr, hd]
    | some d => simp [serve, hm, htok, hauth, hact, hread, hr, hd]
  | some r =>
    cases hd : req.rowData with
    | none => simp [serve, hm, htok, hauth, hact, hread, hr, hd]
    | some d =>
      by_cases hr0 : r = 0
      · subst hr0
        simp [serve, hm, htok, hauth, hact, hread, hr, hd]
      · cases hurl : env.appsScriptUrl with
        | none => simp [serve, hm, htok, hauth, hact, hread, hr, hd, hr0, hurl]
        | some url =>
          cases hw : world.webhook.success with
          | false => simp [serve, hm, htok, hauth, hact, hread, hr, hd, hr0, hurl, hw]
          | true => simp [serve, hm, htok, hauth, hact, hread, hr, hd, hr0, hurl, hw]

/-- Witness for C1's amended theorem: an authenticated update with `data`
absent is rejected with 400 `Missing row or data`. -/
theorem update_validation_iff_falsy_witness :
    serve ⟨some "url"⟩ ⟨.ok "user@example.com", none, ⟨true, none⟩⟩
        ⟨"POST", some "token", "update", some 3, none⟩ =
      (⟨400, .err "Missing row or data"⟩, none) :=
  (update_validation_iff_falsy _ _ _ "user@example.com" (by decide) (by decide)
    rfl rfl).mpr (Or.inr (Or.inr rfl))

/-- Counterexample to C1 as stated: in this authenticated update request
both `row` and `data` are present, yet the proxy responds 400
`Missing row or data` and does not proceed past the validation (no webhook
call is made), because `row = 0` is falsy. -/
theorem update_validation_present_fields_rejected :
    serve ⟨some "url"⟩ ⟨.ok "user@example.com", none, ⟨true, none⟩⟩
        ⟨"POST", some "token", "update", some 0, some [("name", "x")]⟩ =
      (⟨400, .err "Missing row or data"⟩, none) ∧
    (⟨"POST", some "token", "update", some 0, some [("name", "x")]⟩ :
        ProxyRequest).row ≠ none ∧
    (⟨"POST", some "token", "update", some 0, some [("name", "x")]⟩ :
        ProxyRequest).rowData ≠ none := by
  refine ⟨?_, by decide, by decide⟩
  decide

/-- C3: an authenticated update that passes validation, with the Apps
Script URL configured, forwards exactly
`{action: "update", row, data, userEmail}` to the webhook — `row` and
`data` unchanged from the request, `userEmail` from the verified token —
and relays the webhook's verdict: success gives `{success: true}`, failure
gives 400 with the webhook's error message, defaulting to
`Update failed` when none is supplied. -/
theorem update_forwards_and_relays_webhook
    (env : ProxyEnv) (world : ServeWorld) (req : ProxyRequest)
    (email url : String) (r : Int) (d : List (String × String))
    (hm : req.method ≠ "OPTIONS") (ha : req.authHeader ≠ none)
    (hauth : world.auth = .ok email) (hact : req.action = "update")
    (hrow : req.row = some r) (hr0 : r ≠ 0) (hd : req.rowData = some d)
    (hurl : env.appsScriptUrl = some url) :
    (serve env world req).2 = some ⟨"update", r, d, email⟩ ∧
    (world.webhook.success = true → (serve env world req).1 = ⟨200, .updated⟩) ∧
    (world.webhook.success = false →
      (serve env world req).1 =
        ⟨400, .err (jsOrElse world.webhook.error "Update failed")⟩) := by
  obtain ⟨tok, htok⟩ := Option.ne_none_iff_exists'.mp ha
  have hread : req.action ≠ "read" := by rw [hact]; decide
  refine ⟨?_, ?_, ?_⟩
  · cases hw : world.webhook.success <;>
      simp [serve, hm, htok, hauth, hact, hread, hrow, hr0, hd, hurl, hw]
  · intro hw
    simp [serve, hm, htok, hauth, hact, hread, hrow, hr0, hd, hurl, hw]
  · intro hw
    simp [serve, hm, htok, hauth, hact, hread, hrow, hr0, hd, hurl, hw]

/-- Witness for C3: a concrete authenticated update forwarded to a
configured webhook that reports failure without an error message; the
proxy forwards the request's `row` and `data` with the verified email and
surfaces `Update failed`. -/
theorem update_forwards_and_relays_webhook_witness :
    (serve ⟨some "url"⟩ ⟨.ok "user@example.com", none, ⟨false, none⟩⟩
        ⟨"POST", some "token", "update", some 2, some [("name", "x")]⟩).2 =
      some ⟨"update", 2, [("name", "x")], "user@example.com"⟩ ∧
    ((⟨false, none⟩ : WebhookResponse).success = true →
      (serve ⟨some "url"⟩ ⟨.ok "user@example.com", none, ⟨false, none⟩⟩
        ⟨"POST", some "token", "update", some 2, some [("name", "x")]⟩).1 =
        ⟨200, .updated⟩) ∧
    ((⟨false, none⟩ : WebhookResponse).success = false →
      (serve ⟨some "url"⟩ ⟨.ok "user@example.com", none, ⟨false, none⟩⟩
        ⟨"POST", some "token", "update", some 2, some [("name", "x")]⟩).1 =
        ⟨400, .err (jsOrElse (⟨false, none⟩ : WebhookResponse).error "Update failed")⟩) :=
  update_forwards_and_relays_webhook _ _ _ "user@example.com" "url" 2
    [("name", "x")] (by decide) (by decide) rfl rfl rfl (by decide) rfl rfl

/-- C8: saving an edit of the data row at client-visible 0-based index `i`
sends `row = i + 2` in the update request, and the proxy forwards that row
value unchanged to the webhook. -/
theorem saved_edit_row_offset (env : ProxyEnv) (world : ServeWorld)
    (i : Nat) (editData : List (String × String)) (tok email url : String)
    (hauth : world.auth = .ok email) (hurl : env.appsScriptUrl = some url) :
    (handleSaveRequest i editData tok).row = some ((i : Int) + 2) ∧
    (serve env world (handleSaveRequest i editData tok)).2 =
      some ⟨"update", (i : Int) + 2, editData, email⟩ := by
  refine ⟨rfl, ?_⟩
  have h0 : ¬((i : Int) + 2 = 0) := by omega
  cases hw : world.webhook.success <;>
    simp [serve, handleSaveRequest, hauth, hurl, h0, hw]

/-- Witness for C8: saving the first data row (index 0) sends `row = 2`,
forwarded unchanged. -/
theorem saved_edit_row_offset_witness :
    (handleSaveRequest 0 [("name", "x")] "token").row = some ((0 : Int) + 2) ∧
    (serve ⟨some "url"⟩ ⟨.ok "user@example.com", none, ⟨true, none⟩⟩
        (handleSaveRequest 0 [("name", "x")] "token")).2 =
      some ⟨"update", (0 : Int) + 2, [("name", "x")], "user@example.com"⟩ :=
  saved_edit_row_offset ⟨some "url"⟩ ⟨.ok "user@example.com", none, ⟨true, none⟩⟩
    0 [("name", "x")] "token" "user@example.com" "url" rfl rfl

/-- C5: for a well-formed CSV input — its lines are a header followed by N
data lines, none blank, and every data line tokenizes to as many fields as
the header — an authenticated read responds with exactly the header row
followed by the N parsed data rows, each with the header's field count. -/
theorem read_wellformed_row_counts
    (env : ProxyEnv) (world : ServeWorld) (req : ProxyRequest)
    (email text : String) (header : List Char) (dataLines : List (List Char))
    (hm : req.method ≠ "OPTIONS") (ha : req.authHeader ≠ none)
    (hauth : world.auth = .ok email) (hact : req.action = "read")
    (hfetch : world.fetchCsv = some text)
    (hsplit : splitLines text.toList = header :: dataLines)
    (hhdr : header.all isJsWhitespace = false)
    (hdata : ∀ l ∈ dataLines, l.all isJsWhitespace = false)
    (hcount : ∀ l ∈ dataLines, (parseLine l).length = (parseLine header).length) :
    (serve env world req).1 =
      ⟨200, .readData (parseLine header :: dataLines.map parseLine) email⟩ ∧
    (parseLine header :: dataLines.map parseLine).length = dataLines.length + 1 ∧
    ∀ row ∈ dataLines.map parseLine, row.length = (parseLine header).length := by
  obtain ⟨tok, htok⟩ := Option.ne_none_iff_exists'.mp ha
  have hkeep : dataLines.filter (fun l => !(l.all isJsWhitespace)) = dataLines := by
    rw [List.filter_eq_self]
    intro l hl
    simp [hdata l hl]
  have hparse : parseCSV text = parseLine header :: dataLines.map parseLine := by
    rw [parseCSV, hsplit, parseCSVLines_eq_filter_map]
    simp [List.filter, hhdr, hkeep]
  refine ⟨?_, by simp, ?_⟩
  · simp [serve, hm, htok, hauth, hact, hfetch, hparse]
  · intro row hrow
    obtain ⟨l, hl, rfl⟩ := List.mem_map.mp hrow
    exact hcount l hl

/-- Witness for C5: a concrete two-data-row CSV export read by an
authenticated request. -/
theorem read_wellformed_row_counts_witness :
    (serve ⟨some "url"⟩
        ⟨.ok "a@b.c", some "email,name\na@b.c,Alice\nd@e.f,Bob", ⟨true, none⟩⟩
        ⟨"POST", some "token", "read", none, none⟩).1 =
      ⟨200, .readData
        (parseLine "email,name".toList ::
          ["a@b.c,Alice".toList, "d@e.f,Bob".toList].map parseLine) "a@b.c"⟩ ∧
    (parseLine "email,name".toList ::
      ["a@b.c,Alice".toList, "d@e.f,Bob".toList].map parseLine).length =
      ["a@b.c,Alice".toList, "d@e.f,Bob".toList].length + 1 ∧
    ∀ row ∈ ["a@b.c,Alice".toList, "d@e.f,Bob".toList].map parseLine,
      row.length = (parseLine "email,name".toList).length :=
  read_wellformed_row_counts _ _ _ "a@b.c" "email,name\na@b.c,Alice\nd@e.f,Bob"
    "email,name".toList ["a@b.c,Alice".toList, "d@e.f,Bob".toList]
    (by decide) (by decide) rfl rfl rfl (by decide) (by decide)
    (by decide) (by decide)
